import Mathlib

/-!
Verification development for the Investmate portfolio application core
(src/main.py).  The Python source is shallowly embedded: monetary values are
modelled as rationals, timestamps as integer epoch seconds, calendar dates in
the charting model as integer day numbers, and each external fetch (FX rate,
symbol search, current price, daily open/close, price history) as an explicit
outcome value passed to the embedded function.  UI rendering, message boxes
and widget plumbing are out of scope; a shown error dialog is modelled as a
Boolean flag where it matters.
-/

namespace Investmate

/-! ### Currency converter (main.py, `update_currency` / `convert_currency` /
`on_currency_selected`)

State fields mirror the attributes of the `invest_mate` class that these
methods read and write.  Note that `update_currency` writes
`currency_rate_last_updated` while `convert_currency` reads
`last_updated_currency_date`; both fields are kept so the embedding preserves
that mismatch exactly. -/

structure FxState where
  currency : String
  currency_rate : ℚ
  last_updated_currency_date : Int
  currency_rate_last_updated : Int
deriving DecidableEq, Repr

/-- Outcome of one call to the FX-rate HTTP endpoint: a parsed rate, or any
exception along the way (network, JSON, missing key). -/
inductive FxFetch where
  | ok (rate : ℚ)
  | err
deriving DecidableEq, Repr

/-- Source `update_currency`: on success stores the rate and stamps
`currency_rate_last_updated`; on any exception shows an error dialog
(the returned Boolean) and leaves the state unchanged. -/
def update_currency (fetch : FxFetch) (now : Int) (s : FxState) :
    FxState × Bool :=
  match fetch with
  | .ok r =>
      ({ s with currency_rate := r, currency_rate_last_updated := now }, false)
  | .err => (s, true)

/-- Python's `(now - last).seconds`: the seconds component of the timedelta,
i.e. the difference modulo 86400 (days are discarded). -/
def staleSeconds (now last : Int) : Int :=
  (now - last) % 86400

/-- Source `convert_currency`: identity for USD; otherwise, when the cached rate is
stale by more than 600 seconds it calls `update_currency` and then falls off
the end of the function (Python returns `None`, embedded as `none`); when not
stale it returns `amount * currency_rate`.  The Boolean records whether an
error dialog was shown during the call. -/
def convert_currency (amount : ℚ) (fetch : FxFetch) (now : Int)
    (s : FxState) : FxState × Option ℚ × Bool :=
  if s.currency = "USD" then
    (s, some amount, false)
  else if staleSeconds now s.last_updated_currency_date > 600 then
    let r := update_currency fetch now s
    (r.1, none, r.2)
  else
    (s, some (amount * s.currency_rate), false)

/-- Source `on_currency_selected`: set `self.currency` from the selector, then
refresh the rate (the subsequent `update_portfolio([])` call is modelled
separately by the aggregation pass). -/
def on_currency_selected (newCurrency : String) (fetch : FxFetch)
    (now : Int) (s : FxState) : FxState × Bool :=
  update_currency fetch now { s with currency := newCurrency }

/-! ### Tabular save / load (main.py, `save_portfolio` / `load_portfolio`)

A stored holding is a row of cells.  A cell is either text or a number:
form-entered holdings are all-text rows, while `pd.read_csv` applies
column-wise numeric inference, turning a column into numbers exactly when
every cell of the column parses as a decimal literal.  `parseDec` models that
inference on plain `[-]digits[.digits]` literals; `renderCell` models
`DataFrame.to_csv` cell rendering. -/

inductive Cell where
  | str (s : String)
  | num (q : ℚ)
deriving DecidableEq, Repr

def digitVal (c : Char) : Nat := c.toNat - 48

def natOfDigits (ds : List Char) : Nat :=
  ds.foldl (fun a c => a * 10 + digitVal c) 0

/-- Parse an unsigned decimal literal: digits, optionally followed by a dot
and further digits, with at least one digit present overall. -/
def parseUnsigned (cs : List Char) : Option ℚ :=
  let p := cs.span Char.isDigit
  match p.2 with
  | [] =>
      if p.1.isEmpty then none else some (natOfDigits p.1 : ℚ)
  | '.' :: frac =>
      if frac.all Char.isDigit && (!p.1.isEmpty || !frac.isEmpty) then
        some ((natOfDigits p.1 : ℚ) +
          (natOfDigits frac : ℚ) / ((10 : ℚ) ^ frac.length))
      else none
  | _ => none

/-- Numeric inference on one cell of text, as applied by `pd.read_csv` to a
column whose every cell is numeric. -/
def parseDec (s : String) : Option ℚ :=
  match s.toList with
  | [] => none
  | '-' :: rest => (parseUnsigned rest).map (fun q => -q)
  | cs => parseUnsigned cs

/-- Render a rational the way `to_csv` renders the corresponding cell value:
integers as plain digit strings.  Non-integral values (which in the source
are binary floats with exact decimal renderings) are rendered here with an
explicit fraction bar; no claim depends on that branch. -/
def renderQ (q : ℚ) : String :=
  if q.den = 1 then
    (if q.num < 0 then "-" ++ toString q.num.natAbs else toString q.num.natAbs)
  else
    (if q.num < 0 then "-" else "") ++
      toString q.num.natAbs ++ "/" ++ toString q.den

def renderCell : Cell → String
  | .str s => s
  | .num q => renderQ q

/-- The six required columns of the tabular format, in the order
`save_portfolio` writes them. -/
def required_columns : List String :=
  ["Symbol", "Purchase Price", "Fees", "Units", "Date Purchased", "Category"]

/-- A parsed CSV file: header row plus data rows of raw text cells. -/
structure CsvFile where
  header : List String
  rows : List (List String)
deriving DecidableEq, Repr

/-- Source `save_portfolio`: refuses an empty store (only an info dialog is shown),
otherwise writes the rows under the six required column names. -/
def save_portfolio (hs : List (List Cell)) : Option CsvFile :=
  if hs.isEmpty then none
  else some ⟨required_columns, hs.map (fun r => r.map renderCell)⟩

/-- Column `j` of the file parses as numeric when every row's cell `j` does. -/
def colAllNum (rows : List (List String)) (j : Nat) : Bool :=
  rows.all (fun r => (parseDec (r.getD j "")).isSome)

/-- Result of `df.values.tolist()` after `pd.read_csv`: each cell comes back as a
number when its whole column inferred numeric, else as its raw text. -/
def parseRows (f : CsvFile) : List (List Cell) :=
  f.rows.map (fun r =>
    (List.range f.header.length).map (fun j =>
      if colAllNum f.rows j then
        match parseDec (r.getD j "") with
        | some q => Cell.num q
        | none => Cell.str (r.getD j "")
      else Cell.str (r.getD j "")))

inductive LoadResult where
  | ok
  | formatError
deriving DecidableEq, Repr

/-- Source `load_portfolio`: when any required column is missing from the file
header, show a format-error dialog and return with `portfolio_holdings`
untouched; otherwise replace the whole store with the parsed rows. -/
def load_portfolio (f : CsvFile) (holdings : List (List Cell)) :
    List (List Cell) × LoadResult :=
  if required_columns.all (fun c => f.header.contains c) then
    (parseRows f, .ok)
  else
    (holdings, .formatError)

/-- Export followed by import, as a pure row transformation: render every
cell and re-apply column-wise numeric inference under the required header. -/
def normalizeRows (hs : List (List Cell)) : List (List Cell) :=
  parseRows ⟨required_columns, hs.map (fun r => r.map renderCell)⟩

/-! ### Aggregation engine (main.py, `get_current_price` /
`update_portfolio`)

One lot carries the numeric fields the per-lot loop reads after its `float`
conversions; a group is one entry of `group_portfolio_holdings()` output
together with the category and representative date the loop extracts from
its first holding.  Display-currency formatting of `total_symbol_value` is
outside the model (the stored position keeps the raw USD value). -/

structure Lot where
  purchasePrice : ℚ
  fees : ℚ
  units : ℚ
deriving DecidableEq, Repr

structure Group where
  symbol : String
  lots : List Lot
  category : String
deriving DecidableEq, Repr

/-- Outcome of the Finnhub symbol-search request for one symbol:
the request raised, or it answered with `count > 0` and a description,
or with `count = 0`. -/
inductive NameFetch where
  | raise
  | found (description : String)
  | notFound
deriving DecidableEq, Repr

/-- Whether the symbol-search request for this group's symbol raises (the
condition under which the enclosing `except` fires before any state was
written). -/
def searchRaises (nameF : String → NameFetch) (g : Group) : Bool :=
  match nameF g.symbol with
  | .raise => true
  | _ => false

/-- Outcome of the price-history request inside `get_current_price`. -/
inductive PriceFetch where
  | ok (price : ℚ)
  | fail
deriving DecidableEq, Repr

/-- Source `get_current_price`: returns the fetched close, and on any exception
shows an error dialog and returns 0. -/
def get_current_price : PriceFetch → ℚ
  | .ok p => p
  | .fail => 0

def lotCostBasis (l : Lot) : ℚ := l.purchasePrice * l.units - l.fees

def lotCurrentValue (price : ℚ) (l : Lot) : ℚ := price * l.units

/-- Running totals of the per-lot loop body (lines 923-941). -/
structure LotTotals where
  profitLoss : ℚ
  currentValue : ℚ
  investment : ℚ
  units : ℚ
deriving DecidableEq, Repr

def lotStep (price : ℚ) (t : LotTotals) (l : Lot) : LotTotals :=
  { profitLoss := t.profitLoss + (lotCurrentValue price l - lotCostBasis l)
    currentValue := t.currentValue + lotCurrentValue price l
    investment := t.investment + lotCostBasis l
    units := t.units + l.units }

def processLots (price : ℚ) (lots : List Lot) : LotTotals :=
  lots.foldl (lotStep price) ⟨0, 0, 0, 0⟩

/-- The guarded per-position percentage of line 952. -/
def positionPLPercent (t : LotTotals) : ℚ :=
  if t.investment ≠ 0 then t.profitLoss / t.investment * 100 else 0

structure Position where
  name : String
  symbol : String
  totalUnits : ℚ
  totalValue : ℚ
  profitLossPercent : ℚ
  category : String
deriving DecidableEq, Repr

/-- The mutable aggregation fields of `invest_mate` touched by
`update_portfolio`. -/
structure PortfolioState where
  totalProfitLoss : ℚ
  totalPortfolioValue : ℚ
  totalProfitLossPercent : ℚ
  totalPortfolioChange : ℚ
  positions : List Position
deriving DecidableEq, Repr

/-- One iteration of the per-symbol loop.  A raised search request is caught
by the enclosing `except` before any total was touched, so the state passes
through unchanged; otherwise the name falls back to the symbol when the
search found nothing, the price comes from `get_current_price` (0 on
failure), the lot loop runs, the two portfolio totals and the
last-write-wins change percentage are updated, and the position record is
appended. -/
def symbolStep (nameF : String → NameFetch) (priceF : String → PriceFetch)
    (s : PortfolioState) (g : Group) : PortfolioState :=
  match nameF g.symbol with
  | .raise => s
  | nf =>
      let name := match nf with
        | .found d => d
        | _ => g.symbol
      let price := get_current_price (priceF g.symbol)
      let t := processLots price g.lots
      let pl := s.totalProfitLoss + t.profitLoss
      let v := s.totalPortfolioValue + t.currentValue
      { totalProfitLoss := pl
        totalPortfolioValue := v
        totalProfitLossPercent := s.totalProfitLossPercent
        totalPortfolioChange :=
          if v - pl ≠ 0 then pl / (v - pl) * 100 else 0
        positions := s.positions ++
          [{ name := name
             symbol := g.symbol
             totalUnits := t.units
             totalValue := t.currentValue
             profitLossPercent := positionPLPercent t
             category := g.category }] }

/-- The reset of the running totals and the display list at the top of
`update_portfolio` (lines 889, 894-895); `total_profit_loss_percent` and
`total_portfolio_change` are NOT among the fields reset. -/
def resetTotals (s : PortfolioState) : PortfolioState :=
  { s with totalProfitLoss := 0, totalPortfolioValue := 0, positions := [] }

/-- One full aggregation pass of `update_portfolio` over the grouped
holdings: reset the running totals, fold the per-symbol loop, then update
`total_profit_loss_percent` only when `total_portfolio_value -
total_profit_loss` is nonzero (lines 960-961 carry no else-branch, so the
previous value survives otherwise). -/
def update_portfolio_pass (nameF : String → NameFetch)
    (priceF : String → PriceFetch) (groups : List Group)
    (s0 : PortfolioState) : PortfolioState :=
  let s2 := groups.foldl (symbolStep nameF priceF) (resetTotals s0)
  if s2.totalPortfolioValue - s2.totalProfitLoss ≠ 0 then
    { s2 with totalProfitLossPercent :=
        s2.totalProfitLoss /
          (s2.totalPortfolioValue - s2.totalProfitLoss) * 100 }
  else s2

/-! ### Daily change (main.py, `calculate_daily_change`)

Each position contributes its most recent daily `(open, close)` pair.  The
percentage term divides by the open price with no guard; the embedding makes
that partiality explicit: a zero open price leaves the pass without a
defined result (`none`), while the sibling cost-basis division above is
guarded and total. -/

def dailyStep (acc : Option (ℚ × ℚ)) (oc : ℚ × ℚ) : Option (ℚ × ℚ) :=
  match acc with
  | none => none
  | some dc =>
      if oc.1 = 0 then none
      else some (dc.1 + (oc.2 - oc.1), dc.2 + (oc.2 - oc.1) / oc.1 * 100)

/-- Source `calculate_daily_change` over the fetched `(open, close)` pair of each
position, starting from the zeros `update_portfolio` reset. -/
def calculate_daily_change (ocs : List (ℚ × ℚ)) : Option (ℚ × ℚ) :=
  ocs.foldl dailyStep (some (0, 0))

/-! ### Historical value series builder (main.py,
`get_portfolio_data_for_graph`)

Dates are integer day numbers (days since 1970-01-01).  A raw holding
carries the fields the task-building loop extracts, with `none` modelling a
`float(...)` or date-parse failure (the `except` skips that holding). -/

structure RawGraphHolding where
  symbol : String
  units : Option ℚ
  purchaseDate : Option Int
deriving DecidableEq, Repr

/-- The `delta_map` lookup: `some (some d)` is a finite lookback of `d`
days, `some none` is the key `max`, `none` an unrecognized timeframe. -/
def delta_map (tf : String) : Option (Option Int) :=
  if tf = "1wk" then some (some 7)
  else if tf = "1mo" then some (some 30)
  else if tf = "3mo" then some (some 90)
  else if tf = "6mo" then some (some 180)
  else if tf = "1y" then some (some 365)
  else if tf = "2y" then some (some 730)
  else if tf = "5y" then some (some 1825)
  else if tf = "max" then some none
  else none

/-- Day number of 2000-01-01. -/
def jan1_2000 : Int := 10957

/-- The requested window start: unrecognized timeframes are rewritten to
`1mo` first; `max` starts at 2000-01-01. -/
def start_date (tf : String) (endDate : Int) : Int :=
  match delta_map tf with
  | none => endDate - 30
  | some (some d) => endDate - d
  | some none => jan1_2000

/-- One fetch task `(idx, symbol, units, purchase_date)`, built from holding
`idx` when its units and date parse and the date is not after `end_date`. -/
def taskOf (endDate : Int) (idx : Nat) (h : RawGraphHolding) :
    Option (Nat × String × ℚ × Int) :=
  match h.units, h.purchaseDate with
  | some u, some d => if d > endDate then none else some (idx, h.symbol, u, d)
  | _, _ => none

def graphTasks (holdings : List RawGraphHolding) (endDate : Int) :
    List (Nat × String × ℚ × Int) :=
  (List.range holdings.length).filterMap (fun i =>
    (holdings.get? i).bind (taskOf endDate i))

def insertSorted (x : Int) : List Int → List Int
  | [] => [x]
  | y :: ys => if x ≤ y then x :: y :: ys else y :: insertSorted x ys

def sortInts (l : List Int) : List Int := l.foldr insertSorted []

/-- A holding's value on a date absent from its fetched series counts as 0
(the `fillna(0.0)` after the outer join). -/
def lookup0 (d : Int) (series : List (Int × ℚ)) : ℚ :=
  match series.find? (fun p => p.1 = d) with
  | some p => p.2
  | none => 0

/-- Outer-join the per-holding series on date, fill missing days with 0 and
sum across holdings, ascending by date. -/
def mergeSeries (ss : List (List (Int × ℚ))) : List (Int × ℚ) :=
  (sortInts ((ss.foldl (fun acc s => acc ++ s.map Prod.fst) []).dedup)).map
    (fun d => (d, (ss.map (lookup0 d)).sum))

/-- Source `get_portfolio_data_for_graph`: empty store gives an empty frame; one
task per parseable holding not purchased after `end_date`; each task's
history is fetched (from `max(start_date, purchase_date)`), failed or empty
fetches are dropped, and the rest merge into the value curve. -/
def get_portfolio_data_for_graph (tf : String)
    (holdings : List RawGraphHolding) (endDate : Int)
    (fetch : Nat → String → ℚ → Int → Option (List (Int × ℚ))) :
    List (Int × ℚ) :=
  if holdings.isEmpty then []
  else
    let tasks := graphTasks holdings endDate
    if tasks.isEmpty then []
    else
      mergeSeries (tasks.filterMap (fun t =>
        fetch t.1 t.2.1 t.2.2.1 (max (start_date tf endDate) t.2.2.2)))

/-! ## Theorems -/

/-! ### Helper lemmas (not tied to a single claim) -/

theorem foldl_lotStep_spec (price : ℚ) :
    ∀ (lots : List Lot) (t : LotTotals),
      lots.foldl (lotStep price) t =
        ⟨t.profitLoss +
            (lots.map (fun l => lotCurrentValue price l - lotCostBasis l)).sum,
         t.currentValue + (lots.map (lotCurrentValue price)).sum,
         t.investment + (lots.map lotCostBasis).sum,
         t.units + (lots.map Lot.units).sum⟩ := by
  intro lots
  induction lots with
  | nil => intro t; simp
  | cons l ls ih =>
    intro t
    rw [List.foldl_cons, ih]
    simp only [lotStep, List.map_cons, List.sum_cons, LotTotals.mk.injEq]
    refine ⟨by ring, by ring, by ring, by ring⟩

theorem processLots_spec (price : ℚ) (lots : List Lot) :
    processLots price lots =
      ⟨(lots.map (fun l => lotCurrentValue price l - lotCostBasis l)).sum,
       (lots.map (lotCurrentValue price)).sum,
       (lots.map lotCostBasis).sum,
       (lots.map Lot.units).sum⟩ := by
  rw [processLots, foldl_lotStep_spec]
  simp

theorem sum_map_neg_q {α : Type} (l : List α) (f : α → ℚ) :
    (l.map (fun a => -f a)).sum = -(l.map f).sum := by
  induction l with
  | nil => simp
  | cons a as ih => simp [ih]; ring

/-- C5: for every lot the cost basis, current value and profit/loss follow
the stated formulas and the per-symbol totals are their sums over the lots;
on the example lots (100, 1, 10) and (120, 0, 5) at current price 150 the
totals are profit/loss 651, value 2250, cost basis 1599 and 15 units, and
the position percentage lies strictly between 40.71 and 40.72. -/
theorem c5_lot_formulas_and_example :
    (∀ (price : ℚ) (lots : List Lot),
        (processLots price lots).investment = (lots.map lotCostBasis).sum ∧
        (processLots price lots).currentValue =
          (lots.map (lotCurrentValue price)).sum ∧
        (processLots price lots).profitLoss =
          (lots.map (fun l => lotCurrentValue price l - lotCostBasis l)).sum) ∧
    processLots 150 [⟨100, 1, 10⟩, ⟨120, 0, 5⟩] = ⟨651, 2250, 1599, 15⟩ ∧
    (4071 : ℚ) / 100 <
      positionPLPercent (processLots 150 [⟨100, 1, 10⟩, ⟨120, 0, 5⟩]) ∧
    positionPLPercent (processLots 150 [⟨100, 1, 10⟩, ⟨120, 0, 5⟩]) <
      (4072 : ℚ) / 100 := by
  have hconc : processLots 150 [⟨100, 1, 10⟩, ⟨120, 0, 5⟩] =
      (⟨651, 2250, 1599, 15⟩ : LotTotals) := by
    rw [processLots_spec]
    simp only [List.map_cons, List.map_nil, List.sum_cons, List.sum_nil,
      lotCurrentValue, lotCostBasis, LotTotals.mk.injEq]
    norm_num
  refine ⟨fun price lots => by rw [processLots_spec]; exact ⟨rfl, rfl, rfl⟩,
    hconc, ?_, ?_⟩
  · rw [hconc]
    rw [positionPLPercent]
    norm_num
  · rw [hconc]
    rw [positionPLPercent]
    norm_num

/-- C6: whenever the total cost basis of a symbol's lots is zero, the
guarded percentage of line 952 is 0 — the division is never taken. -/
theorem c6_zero_cost_basis_percent_zero (price : ℚ) (lots : List Lot)
    (h : (lots.map lotCostBasis).sum = 0) :
    positionPLPercent (processLots price lots) = 0 := by
  rw [positionPLPercent, processLots_spec]
  simp [h]

/-- C6 witness: one lot bought at 100 with fees 1000 for 10 units has cost
basis exactly 0 and the position percentage is 0. -/
theorem c6_zero_cost_basis_witness :
    positionPLPercent (processLots 5 [⟨100, 1000, 10⟩]) = 0 :=
  c6_zero_cost_basis_percent_zero 5 _
    (by norm_num [lotCostBasis])

/-- C1: the claim fails on the code.  With a non-USD target currency and a
cached rate stale by 601 seconds, `convert_currency 100` triggers the
synchronous refresh — the fetched rate 2 is stored — but the function then
falls off the end and yields no numeric result at all (`none`), instead of
`amount * rate = 200`; the refresh also stamps `currency_rate_last_updated`
rather than the `last_updated_currency_date` field the staleness check
reads. -/
theorem c1_convert_currency_stale_returns_none :
    convert_currency 100 (.ok 2) 601
        { currency := "EUR", currency_rate := 0,
          last_updated_currency_date := 0, currency_rate_last_updated := 0 } =
      ({ currency := "EUR", currency_rate := 2,
         last_updated_currency_date := 0, currency_rate_last_updated := 601 },
       none, false) := by
  rfl

/-- C2: the claim fails on the code.  Selecting EUR at time 10 with the rate
fetch failing (`RateFetchError`) leaves `currency_rate` at its initial 0
(the failure dialog is shown, first conjunct); the very next conversion is
inside the 600-second window, so it silently — no error, third component
`false` — returns the numeric result `100 * 0 = 0`. -/
theorem c2_failed_refresh_then_silent_zero_rate_result :
    (on_currency_selected "EUR" .err 10
        { currency := "USD", currency_rate := 0,
          last_updated_currency_date := 0,
          currency_rate_last_updated := 0 }).2 = true ∧
    convert_currency 100 .err 10
        (on_currency_selected "EUR" .err 10
          { currency := "USD", currency_rate := 0,
            last_updated_currency_date := 0,
            currency_rate_last_updated := 0 }).1 =
      ({ currency := "EUR", currency_rate := 0,
         last_updated_currency_date := 0, currency_rate_last_updated := 0 },
       some 0, false) := by
  refine ⟨rfl, ?_⟩
  have hs : (on_currency_selected "EUR" FxFetch.err 10
      { currency := "USD", currency_rate := 0,
        last_updated_currency_date := 0,
        currency_rate_last_updated := 0 }).1 =
      { currency := "EUR", currency_rate := 0,
        last_updated_currency_date := 0,
        currency_rate_last_updated := 0 } := rfl
  rw [hs]
  unfold convert_currency
  rw [if_neg (by decide), if_neg (by decide)]
  norm_num

theorem symbolStep_raise (nameF : String → NameFetch)
    (priceF : String → PriceFetch) (s : PortfolioState) (g : Group)
    (h : nameF g.symbol = .raise) :
    symbolStep nameF priceF s g = s := by
  rw [symbolStep, h]

theorem searchRaises_false_iff (nameF : String → NameFetch) (g : Group) :
    searchRaises nameF g = false ↔ nameF g.symbol ≠ NameFetch.raise := by
  rw [searchRaises]
  cases nameF g.symbol <;> simp

theorem symbolStep_notRaise_fields (nameF : String → NameFetch)
    (priceF : String → PriceFetch) (s : PortfolioState) (g : Group)
    (hname : searchRaises nameF g = false) :
    (symbolStep nameF priceF s g).totalProfitLoss =
      s.totalProfitLoss +
        (processLots (get_current_price (priceF g.symbol))
          g.lots).profitLoss ∧
    (symbolStep nameF priceF s g).totalPortfolioValue =
      s.totalPortfolioValue +
        (processLots (get_current_price (priceF g.symbol))
          g.lots).currentValue ∧
    (symbolStep nameF priceF s g).positions.length =
      s.positions.length + 1 ∧
    (symbolStep nameF priceF s g).totalProfitLossPercent =
      s.totalProfitLossPercent := by
  have hne := (searchRaises_false_iff nameF g).mp hname
  cases h : nameF g.symbol with
  | raise => exact absurd h hne
  | found d =>
      rw [symbolStep, h]
      exact ⟨rfl, rfl, by simp, rfl⟩
  | notFound =>
      rw [symbolStep, h]
      exact ⟨rfl, rfl, by simp, rfl⟩

theorem foldl_symbolStep_skips_raises (nameF : String → NameFetch)
    (priceF : String → PriceFetch) :
    ∀ (groups : List Group) (s : PortfolioState),
      groups.foldl (symbolStep nameF priceF) s =
        (groups.filter (fun g => !searchRaises nameF g)).foldl
          (symbolStep nameF priceF) s := by
  intro groups
  induction groups with
  | nil => intro s; rfl
  | cons g gs ih =>
    intro s
    by_cases hg : searchRaises nameF g = true
    · have hraise : nameF g.symbol = .raise := by
        by_contra hne
        have hfalse := (searchRaises_false_iff nameF g).mpr hne
        rw [hg] at hfalse
        exact absurd hfalse (by simp)
      rw [List.foldl_cons, List.filter_cons, symbolStep_raise _ _ _ _ hraise]
      simp only [hg, Bool.not_true, if_neg]
      exact ih s
    · have hg' : searchRaises nameF g = false := by
        cases h : searchRaises nameF g
        · rfl
        · exact absurd h hg
      rw [List.foldl_cons, List.filter_cons]
      simp only [hg', Bool.not_false, if_pos]
      rw [List.foldl_cons]
      exact ih _

theorem foldl_symbolStep_percent (nameF : String → NameFetch)
    (priceF : String → PriceFetch) :
    ∀ (groups : List Group) (s : PortfolioState),
      (groups.foldl (symbolStep nameF priceF) s).totalProfitLossPercent =
        s.totalProfitLossPercent := by
  intro groups
  induction groups with
  | nil => intro s; rfl
  | cons g gs ih =>
    intro s
    rw [List.foldl_cons, ih]
    cases h : nameF g.symbol <;> simp [symbolStep, h]

theorem update_portfolio_pass_profitLoss (nameF : String → NameFetch)
    (priceF : String → PriceFetch) (groups : List Group)
    (s0 : PortfolioState) :
    (update_portfolio_pass nameF priceF groups s0).totalProfitLoss =
      (groups.foldl (symbolStep nameF priceF)
        (resetTotals s0)).totalProfitLoss := by
  simp only [update_portfolio_pass]
  split <;> rfl

theorem update_portfolio_pass_value (nameF : String → NameFetch)
    (priceF : String → PriceFetch) (groups : List Group)
    (s0 : PortfolioState) :
    (update_portfolio_pass nameF priceF groups s0).totalPortfolioValue =
      (groups.foldl (symbolStep nameF priceF)
        (resetTotals s0)).totalPortfolioValue := by
  simp only [update_portfolio_pass]
  split <;> rfl

theorem update_portfolio_pass_positions (nameF : String → NameFetch)
    (priceF : String → PriceFetch) (groups : List Group)
    (s0 : PortfolioState) :
    (update_portfolio_pass nameF priceF groups s0).positions =
      (groups.foldl (symbolStep nameF priceF)
        (resetTotals s0)).positions := by
  simp only [update_portfolio_pass]
  split <;> rfl

/-- C3 counterexample: one group whose current-price fetch fails is NOT
omitted from the snapshot — `get_current_price` swallows the failure and
returns 0, so the symbol still contributes `-cost_basis = -100` to
`total_profit_loss` and still appears as a position. -/
theorem c3_price_failure_not_omitted :
    (update_portfolio_pass (fun _ => .notFound) (fun _ => .fail)
        [⟨"A", [⟨100, 0, 1⟩], "General"⟩]
        ⟨0, 0, 0, 0, []⟩).totalProfitLoss = -100 ∧
    (update_portfolio_pass (fun _ => .notFound) (fun _ => .fail)
        [⟨"A", [⟨100, 0, 1⟩], "General"⟩]
        ⟨0, 0, 0, 0, []⟩).positions.length = 1 := by
  obtain ⟨hpl, hv, hlen, hpct⟩ := symbolStep_notRaise_fields
    (fun _ => NameFetch.notFound) (fun _ => PriceFetch.fail)
    (resetTotals ⟨0, 0, 0, 0, []⟩) ⟨"A", [⟨100, 0, 1⟩], "General"⟩ rfl
  constructor
  · rw [update_portfolio_pass_profitLoss, List.foldl_cons, List.foldl_nil,
      hpl, processLots_spec]
    norm_num [lotCurrentValue, lotCostBasis, get_current_price, resetTotals]
  · rw [update_portfolio_pass_positions, List.foldl_cons, List.foldl_nil]
    rw [show ((resetTotals (⟨0, 0, 0, 0, []⟩ : PortfolioState)).positions.length) = 0 from rfl] at hlen
    rw [hlen]

/-- C3 (amended): a raised symbol-search request is caught and that symbol
is omitted — the pass equals the pass over the groups whose search does not
raise, in their original order, so all remaining symbols are still
aggregated; but a failed current-price fetch does not omit the symbol: it
is processed with price 0, subtracting its whole cost basis from
`total_profit_loss` and still appending its position. -/
theorem c3_name_failure_omitted_price_failure_zeroed :
    (∀ (nameF : String → NameFetch) (priceF : String → PriceFetch)
        (groups : List Group) (s0 : PortfolioState),
        update_portfolio_pass nameF priceF groups s0 =
          update_portfolio_pass nameF priceF
            (groups.filter (fun g => !searchRaises nameF g)) s0) ∧
    (∀ (nameF : String → NameFetch) (priceF : String → PriceFetch)
        (s : PortfolioState) (g : Group),
        nameF g.symbol ≠ NameFetch.raise →
        priceF g.symbol = PriceFetch.fail →
        (symbolStep nameF priceF s g).totalProfitLoss =
          s.totalProfitLoss - (g.lots.map lotCostBasis).sum ∧
        (symbolStep nameF priceF s g).positions.length =
          s.positions.length + 1) := by
  constructor
  · intro nameF priceF groups s0
    rw [update_portfolio_pass, update_portfolio_pass,
      foldl_symbolStep_skips_raises]
  · intro nameF priceF s g hname hprice
    have hsr : searchRaises nameF g = false :=
      (searchRaises_false_iff nameF g).mpr hname
    obtain ⟨hpl, hv, hlen, hpct⟩ :=
      symbolStep_notRaise_fields nameF priceF s g hsr
    refine ⟨?_, hlen⟩
    rw [hpl, hprice, processLots_spec]
    simp only [get_current_price, lotCurrentValue]
    have hneg : (g.lots.map (fun l => 0 * l.units - lotCostBasis l)).sum =
        -(g.lots.map lotCostBasis).sum := by
      rw [← sum_map_neg_q]
      congr 1
      refine List.map_congr_left fun l _ => by ring
    rw [hneg]
    ring

/-- C3 witness: a concrete symbol whose search succeeds but whose price
fetch fails loses its whole cost basis (100) from the running profit/loss
total and still appends one position. -/
theorem c3_price_failure_witness :
    (symbolStep (fun _ => NameFetch.notFound) (fun _ => PriceFetch.fail)
        ⟨0, 0, 0, 0, []⟩ ⟨"B", [⟨100, 0, 1⟩], "General"⟩).totalProfitLoss =
      (0 : ℚ) - ([(⟨100, 0, 1⟩ : Lot)].map lotCostBasis).sum ∧
    (symbolStep (fun _ => NameFetch.notFound) (fun _ => PriceFetch.fail)
        ⟨0, 0, 0, 0, []⟩
        ⟨"B", [⟨100, 0, 1⟩], "General"⟩).positions.length = 0 + 1 :=
  c3_name_failure_omitted_price_failure_zeroed.2 _ _ _ _
    (by simp) rfl

/-- C4 counterexample: a first pass over one profitable symbol sets
`total_profit_loss_percent` to 100; an immediately following pass over an
empty store ends with denominator `total_value - total_profit_loss = 0`,
yet the percentage stays 100 instead of the 0 the claim requires — lines
960-961 have no else branch and the field is not reset at the start of the
pass. -/
theorem c4_denominator_zero_keeps_stale_percent :
    (update_portfolio_pass (fun _ => .notFound) (fun _ => .ok 2) []
        (update_portfolio_pass (fun _ => .notFound) (fun _ => .ok 2)
          [⟨"A", [⟨1, 0, 1⟩], "General"⟩]
          ⟨0, 0, 0, 0, []⟩)).totalPortfolioValue -
      (update_portfolio_pass (fun _ => .notFound) (fun _ => .ok 2) []
        (update_portfolio_pass (fun _ => .notFound) (fun _ => .ok 2)
          [⟨"A", [⟨1, 0, 1⟩], "General"⟩]
          ⟨0, 0, 0, 0, []⟩)).totalProfitLoss = 0 ∧
    (update_portfolio_pass (fun _ => .notFound) (fun _ => .ok 2) []
        (update_portfolio_pass (fun _ => .notFound) (fun _ => .ok 2)
          [⟨"A", [⟨1, 0, 1⟩], "General"⟩]
          ⟨0, 0, 0, 0, []⟩)).totalProfitLossPercent = 100 := by
  have hinner : (update_portfolio_pass (fun _ => NameFetch.notFound)
      (fun _ => PriceFetch.ok 2) [⟨"A", [⟨1, 0, 1⟩], "General"⟩]
      (⟨0, 0, 0, 0, []⟩ : PortfolioState)).totalProfitLossPercent = 100 := by
    obtain ⟨hpl, hv, hlen, hpct⟩ := symbolStep_notRaise_fields
      (fun _ => NameFetch.notFound) (fun _ => PriceFetch.ok 2)
      (resetTotals ⟨0, 0, 0, 0, []⟩) ⟨"A", [⟨1, 0, 1⟩], "General"⟩ rfl
    have hplv : (List.foldl (symbolStep (fun _ => NameFetch.notFound)
        (fun _ => PriceFetch.ok 2)) (resetTotals ⟨0, 0, 0, 0, []⟩)
        [⟨"A", [⟨1, 0, 1⟩], "General"⟩]).totalProfitLoss = 1 := by
      rw [List.foldl_cons, List.foldl_nil, hpl, processLots_spec]
      norm_num [lotCurrentValue, lotCostBasis, get_current_price,
        resetTotals]
    have hvv : (List.foldl (symbolStep (fun _ => NameFetch.notFound)
        (fun _ => PriceFetch.ok 2)) (resetTotals ⟨0, 0, 0, 0, []⟩)
        [⟨"A", [⟨1, 0, 1⟩], "General"⟩]).totalPortfolioValue = 2 := by
      rw [List.foldl_cons, List.foldl_nil, hv, processLots_spec]
      norm_num [lotCurrentValue, lotCostBasis, get_current_price,
        resetTotals]
    simp only [update_portfolio_pass]
    rw [if_pos (by rw [hplv, hvv]; norm_num)]
    rw [hplv, hvv]
    norm_num
  constructor
  · rw [update_portfolio_pass_profitLoss, update_portfolio_pass_value,
      List.foldl_nil]
    norm_num [resetTotals]
  · simp only [update_portfolio_pass, List.foldl_nil]
    rw [if_neg (by simp [resetTotals])]
    exact hinner

/-- C4 (amended): at the end of every aggregation pass,
`total_profit_loss_percent` equals
`total_profit_loss / (total_value - total_profit_loss) * 100` when that
denominator is nonzero, and otherwise retains the value it had before the
pass (it is not reset to 0). -/
theorem c4_percent_formula_or_stale (nameF : String → NameFetch)
    (priceF : String → PriceFetch) (groups : List Group)
    (s0 : PortfolioState) :
    (update_portfolio_pass nameF priceF groups s0).totalProfitLossPercent =
      if (update_portfolio_pass nameF priceF groups
            s0).totalPortfolioValue -
          (update_portfolio_pass nameF priceF groups s0).totalProfitLoss =
          0 then
        s0.totalProfitLossPercent
      else
        (update_portfolio_pass nameF priceF groups s0).totalProfitLoss /
          ((update_portfolio_pass nameF priceF groups
              s0).totalPortfolioValue -
            (update_portfolio_pass nameF priceF groups
              s0).totalProfitLoss) * 100 := by
  rw [update_portfolio_pass_profitLoss, update_portfolio_pass_value]
  simp only [update_portfolio_pass]
  by_cases h : (List.foldl (symbolStep nameF priceF) (resetTotals s0)
        groups).totalPortfolioValue -
      (List.foldl (symbolStep nameF priceF) (resetTotals s0)
        groups).totalProfitLoss = 0
  · rw [if_neg (not_not_intro h), if_pos h]
    exact foldl_symbolStep_percent nameF priceF groups (resetTotals s0)
  · rw [if_pos h, if_neg h]

/-- C8: an import file whose header misses any of the six required columns
makes `load_portfolio` report a format error and leave the existing
holdings sequence completely unmodified. -/
theorem c8_missing_column_leaves_store_unmodified
    (holdings : List (List Cell)) (f : CsvFile)
    (h : ∃ c ∈ required_columns, c ∉ f.header) :
    load_portfolio f holdings = (holdings, .formatError) := by
  obtain ⟨c, hc, hnot⟩ := h
  have hall : required_columns.all (fun c => f.header.contains c) = false := by
    by_contra hne
    have htrue : required_columns.all (fun c => f.header.contains c) = true := by
      revert hne
      cases required_columns.all (fun c => f.header.contains c) <;> simp
    have hc' := List.all_eq_true.mp htrue c hc
    simp only [List.contains] at hc'
    exact hnot (List.elem_iff.mp hc')
  simp [load_portfolio, hall]
  exact ⟨c, hc, hnot⟩

/-- C8 witness: a file with only the columns Symbol and Units fails the load
and leaves the one existing holding in place. -/
theorem c8_missing_column_witness :
    load_portfolio ⟨["Symbol", "Units"], []⟩ [[Cell.str "X"]] =
      ([[Cell.str "X"]], .formatError) :=
  c8_missing_column_leaves_store_unmodified _ _
    ⟨"Purchase Price", by decide, by decide⟩

/-- C7 counterexample: a form-entered holding (all fields stored as text,
as `QLineEdit.text()` produces them) does not survive the export/import
round trip unchanged — the numeric-looking fields come back as numbers, and
`Cell.num 100` is not `Cell.str "100"`. -/
theorem c7_roundtrip_not_identity_on_form_rows :
    (save_portfolio [[Cell.str "AAPL", Cell.str "100", Cell.str "1",
        Cell.str "10", Cell.str "01-01-2023", Cell.str "General"]]).map
        (fun f => (load_portfolio f []).1) =
      some [[Cell.str "AAPL", Cell.num 100, Cell.num 1, Cell.num 10,
        Cell.str "01-01-2023", Cell.str "General"]] ∧
    some [[Cell.str "AAPL", Cell.num 100, Cell.num 1, Cell.num 10,
        Cell.str "01-01-2023", Cell.str "General"]] ≠
      some [[Cell.str "AAPL", Cell.str "100", Cell.str "1", Cell.str "10",
        Cell.str "01-01-2023", Cell.str "General"]] :=
  ⟨rfl, by decide⟩

/-- C7 (amended): exporting a non-empty Holdings Store and re-importing it
always succeeds and yields exactly the column-wise numeric normalization of
the exported rows — the same number of transactions in the original order,
each text field re-read through the tabular reader's type inference;
consequently the round trip is the identity on rows whose numeric fields
are already stored as numbers (third conjunct shows a concrete such row),
but not on form-entered all-text rows. -/
theorem c7_roundtrip_is_normalization (hs : List (List Cell))
    (prior : List (List Cell)) (hne : hs ≠ []) :
    (save_portfolio hs).map (fun f => load_portfolio f prior) =
      some (normalizeRows hs, .ok) ∧
    (normalizeRows hs).length = hs.length ∧
    (save_portfolio [[Cell.str "MSFT", Cell.num 210, Cell.num 2,
        Cell.num 4, Cell.str "05-03-2022", Cell.str "Tech"]]).map
        (fun f => (load_portfolio f []).1) =
      some [[Cell.str "MSFT", Cell.num 210, Cell.num 2, Cell.num 4,
        Cell.str "05-03-2022", Cell.str "Tech"]] := by
  refine ⟨?_, ?_, rfl⟩
  · have hempty : hs.isEmpty = false := by
      cases hs with
      | nil => exact absurd rfl hne
      | cons r rs => rfl
    rw [save_portfolio, hempty]
    rw [if_neg (by decide)]
    rw [Option.map_some']
    simp only [load_portfolio]
    rw [if_pos (by decide)]
    rfl
  · rw [normalizeRows, parseRows]
    simp

/-- C7 witness: the amended statement at a concrete one-row store of text
cells, with a concrete non-empty prior store. -/
theorem c7_roundtrip_witness :
    ((save_portfolio [[Cell.str "X", Cell.str "5", Cell.str "0",
        Cell.str "1", Cell.str "02-02-2024", Cell.str "General"]]).map
        (fun f => load_portfolio f [[Cell.str "old"]]) =
      some (normalizeRows [[Cell.str "X", Cell.str "5", Cell.str "0",
        Cell.str "1", Cell.str "02-02-2024", Cell.str "General"]], .ok)) ∧
    (normalizeRows [[Cell.str "X", Cell.str "5", Cell.str "0",
        Cell.str "1", Cell.str "02-02-2024", Cell.str "General"]]).length =
      [[Cell.str "X", Cell.str "5", Cell.str "0", Cell.str "1",
        Cell.str "02-02-2024", Cell.str "General"]].length ∧
    (save_portfolio [[Cell.str "MSFT", Cell.num 210, Cell.num 2,
        Cell.num 4, Cell.str "05-03-2022", Cell.str "Tech"]]).map
        (fun f => (load_portfolio f []).1) =
      some [[Cell.str "MSFT", Cell.num 210, Cell.num 2, Cell.num 4,
        Cell.str "05-03-2022", Cell.str "Tech"]] :=
  c7_roundtrip_is_normalization _ _ (List.cons_ne_nil _ _)

/-- C9: the Historical Value Series Builder returns an empty series for an
empty Holdings Store, and every fetch task it builds comes from a holding
of the store whose parsed purchase date is at most the requested end date —
so a holding purchased after the end date contributes nothing to the merged
series, which is built from the tasks' fetches alone. -/
theorem c9_empty_store_and_late_purchase_excluded :
    (∀ (tf : String) (endDate : Int)
        (fetch : Nat → String → ℚ → Int → Option (List (Int × ℚ))),
        get_portfolio_data_for_graph tf [] endDate fetch = []) ∧
    (∀ (holdings : List RawGraphHolding) (endDate : Int)
        (t : Nat × String × ℚ × Int),
        t ∈ graphTasks holdings endDate →
        t.2.2.2 ≤ endDate ∧
        ∃ h, holdings.get? t.1 = some h ∧ h.symbol = t.2.1 ∧
          h.units = some t.2.2.1 ∧ h.purchaseDate = some t.2.2.2) := by
  constructor
  · intro tf endDate fetch
    rfl
  · intro holdings endDate t ht
    rw [graphTasks] at ht
    obtain ⟨i, hi, hf⟩ := List.mem_filterMap.mp ht
    cases hg : holdings.get? i with
    | none => rw [hg] at hf; exact absurd hf (by simp)
    | some h =>
        rw [hg] at hf
        have hf' : taskOf endDate i h = some t := hf
        obtain ⟨sym, units, pdate⟩ := h
        cases units with
        | none => exact absurd hf' (by simp [taskOf])
        | some u =>
            cases pdate with
            | none => exact absurd hf' (by simp [taskOf])
            | some d =>
                simp only [taskOf] at hf'
                by_cases hlate : d > endDate
                · rw [if_pos hlate] at hf'
                  exact absurd hf' (by simp)
                · rw [if_neg hlate] at hf'
                  have ht' : t = (i, sym, u, d) := (Option.some.inj hf').symm
                  subst ht'
                  exact ⟨le_of_not_lt hlate, ⟨sym, some u, some d⟩, hg,
                    rfl, rfl, rfl⟩

theorem foldl_dailyStep_none (ocs : List (ℚ × ℚ)) :
    ocs.foldl dailyStep none = none := by
  induction ocs with
  | nil => rfl
  | cons oc ocs ih => rw [List.foldl_cons]; exact ih

theorem foldl_dailyStep_spec :
    ∀ (ocs : List (ℚ × ℚ)) (a b : ℚ),
      ocs.foldl dailyStep (some (a, b)) =
        if ∀ oc ∈ ocs, oc.1 ≠ 0 then
          some (a + (ocs.map (fun oc => oc.2 - oc.1)).sum,
                b + (ocs.map (fun oc => (oc.2 - oc.1) / oc.1 * 100)).sum)
        else none := by
  intro ocs
  induction ocs with
  | nil => intro a b; simp
  | cons oc ocs ih =>
    intro a b
    by_cases h : oc.1 = 0
    · rw [if_neg (fun hall => hall oc (List.mem_cons_self _ _) h)]
      rw [List.foldl_cons]
      have hstep : dailyStep (some (a, b)) oc = none := by
        rw [dailyStep, if_pos h]
      rw [hstep, foldl_dailyStep_none]
    · rw [List.foldl_cons]
      have hstep : dailyStep (some (a, b)) oc =
          some (a + (oc.2 - oc.1), b + (oc.2 - oc.1) / oc.1 * 100) := by
        rw [dailyStep, if_neg h]
      rw [hstep, ih]
      by_cases hall : ∀ p ∈ ocs, p.1 ≠ 0
      · rw [if_pos hall, if_pos ?_]
        · simp only [List.map_cons, List.sum_cons, Option.some.injEq,
            Prod.mk.injEq]
          exact ⟨by ring, by ring⟩
        · intro p hp
          rcases List.mem_cons.mp hp with rfl | hp'
          · exact h
          · exact hall p hp'
      · rw [if_neg hall, if_neg ?_]
        intro hc
        exact hall fun p hp => hc p (List.mem_cons_of_mem _ hp)

/-- C10: the daily-change pass adds `(close - open)` and
`(close - open)/open*100` per position with the open price as an unguarded
divisor: it yields those additive sums exactly when every position's
fetched open price is nonzero, and a zero open price leaves the pass with
no defined result (no guard exists, unlike the guarded cost-basis
division). -/
theorem c10_daily_change_unguarded_open (ocs : List (ℚ × ℚ)) :
    calculate_daily_change ocs =
      if ∀ oc ∈ ocs, oc.1 ≠ 0 then
        some ((ocs.map (fun oc => oc.2 - oc.1)).sum,
              (ocs.map (fun oc => (oc.2 - oc.1) / oc.1 * 100)).sum)
      else none := by
  rw [calculate_daily_change, foldl_dailyStep_spec]
  simp

end Investmate
